import Mathlib

set_option maxRecDepth 40000

/-!
Verification development for the `poly_scan` event-decoding and
token-identity-resolution pipeline (`src/stage1/poly_scan/src/`).

The Rust sources are shallowly embedded as executable Lean definitions:

* byte strings are `List Nat` (each element a byte value);
* `U256` values read out of byte slices are `Nat` (`U256::from_big_endian`);
* `H256` / `Address` are byte lists of length 32 / 20;
* Rust panics (`unwrap` of `None`, index out of bounds, the overflow checks
  inside `U256::as_u32` / `U256::as_u64` / `U256::from_big_endian`) are
  modelled as `Except.error ()`; RPC calls are supplied by an explicit
  environment record;
* `HashMap` / `HashSet` are association lists / deduplicated lists.  All map
  and set uses in the source are iteration-order independent apart from the
  per-receipt `Transfer` scan, which iterates a `Vec` in log order and is
  embedded in that order.

`keccak256` is the Keccak-256 function used by `ethers::utils::keccak256`
(original Keccak padding `0x01`, rate 136, 24 rounds), implemented here over
`Nat` lane values; it is validated below against published test vectors.

The one deliberate modelling deviation: `calculate_price`
(`utils.rs` lines 13-28) routes its result through `f64` parsing, division
and `{:.6}` formatting.  IEEE-754 floating point is outside this embedding;
the embedded `calculate_price` records the exact arguments the source passes
to it (numerator leg first), which is what the side/price-convention claims
are about.  No theorem below asserts anything about the decimal rendering of
the price.
-/

namespace PolyScan

/-! ## Generic byte, map and string helpers -/

/-- `U256::from_big_endian` on a byte slice (no length assertion; the
assertion sites in the source are modelled where the slice length is not
forced by construction). -/
def fromBigEndian (bs : List Nat) : Nat :=
  bs.foldl (fun acc b => acc * 256 + b) 0

/-- `U256::from_big_endian(&bytes)` including the `assert!(bytes.len() <= 32)`
panic of the `uint` crate, for call sites where the slice length is taken
from untrusted log data. -/
def fromBigEndianChecked (bs : List Nat) : Except Unit Nat :=
  if bs.length ≤ 32 then Except.ok (fromBigEndian bs) else Except.error ()

/-- `U256::to_big_endian` into a 32-byte buffer. -/
def toBigEndian32 (v : Nat) : List Nat :=
  (List.range 32).map fun i => v >>> (8 * (31 - i)) % 256

/-- Association-list model of `HashMap::insert` (an existing binding for the
key is replaced). -/
def mapInsert {α β : Type} [DecidableEq α] (m : List (α × β)) (k : α) (v : β) :
    List (α × β) :=
  (m.filter fun p => decide (p.1 ≠ k)) ++ [(k, v)]

/-- Association-list model of `HashMap::get`. -/
def mapLookup {α β : Type} [DecidableEq α] (m : List (α × β)) (k : α) :
    Option β :=
  (m.find? fun p => decide (p.1 = k)).map Prod.snd

/-- Deduplicating model of `HashSet::insert` (insertion order kept; every
set in the source is consumed order-independently). -/
def setInsert {α : Type} [DecidableEq α] (s : List α) (k : α) : List α :=
  if k ∈ s then s else s ++ [k]

/-- Lowercase hexadecimal digit, as produced by Rust's `{:x}` formatting. -/
def hexDigitChar (n : Nat) : Char :=
  if n < 10 then Char.ofNat (48 + n) else Char.ofNat (87 + n)

/-- Two-digit lowercase hex of one byte (`{:02x}`). -/
def byteToHex (b : Nat) : List Char :=
  [hexDigitChar (b / 16), hexDigitChar (b % 16)]

/-- Full-width lowercase hex of a byte string, as `Debug`/`LowerHex` of the
fixed-hash types (`H256`, `H160`) print it. -/
def bytesToHex (bs : List Nat) : String :=
  String.mk ((bs.map byteToHex).flatten)

/-- `format!("{:?}", h)` for an `H256` value: `0x` plus 64 hex digits. -/
def format_h256 (bs : List Nat) : String :=
  "0x" ++ bytesToHex bs

/-- `utils.rs` `format_address`: `format!("{:?}", addr)`, i.e. `0x` plus
40 hex digits. -/
def format_address (addr : List Nat) : String :=
  "0x" ++ bytesToHex addr

/-- `format!("0x{:x}", v)` for a `U256` value: minimal-width lowercase hex
(`0x0` for zero). -/
def format_u256_hex (v : Nat) : String :=
  "0x" ++ String.mk (Nat.toDigits 16 v)

/-- `utils.rs` `u256_to_string`: decimal rendering of a `U256`. -/
def u256_to_string (v : Nat) : String :=
  toString v

/-! ## Keccak-256 (`ethers::utils::keccak256`) -/

/-- Rotate a 64-bit lane left by `n` (for `0 ≤ n < 64` and `x < 2 ^ 64`). -/
def rotl64 (x n : Nat) : Nat :=
  ((x <<< n) % 2 ^ 64) ||| (x >>> (64 - n))

/-- The 24 Keccak round constants (in round order, three per row). -/
def keccakRC : List Nat :=
  [[0x0000000000000001, 0x0000000000008082, 0x800000000000808a],
   [0x8000000080008000, 0x000000000000808b, 0x0000000080000001],
   [0x8000000080008081, 0x8000000000008009, 0x000000000000008a],
   [0x0000000000000088, 0x0000000080008009, 0x000000008000000a],
   [0x000000008000808b, 0x800000000000008b, 0x8000000000008089],
   [0x8000000000008003, 0x8000000000008002, 0x8000000000000080],
   [0x000000000000800a, 0x800000008000000a, 0x8000000080008081],
   [0x8000000000008080, 0x0000000080000001, 0x8000000080008008]].flatten

/-- Rotation offsets, indexed by lane position `x + 5 * y` (rows are
`y = 0` through `y = 4`). -/
def keccakRot : List Nat :=
  [[0, 1, 62, 28, 27],
   [36, 44, 6, 55, 20],
   [3, 10, 43, 25, 39],
   [41, 45, 15, 21, 8],
   [18, 2, 61, 56, 14]].flatten

/-- Keccak θ step on a 25-lane state. -/
def theta (A : List Nat) : List Nat :=
  let C := (List.range 5).map fun x =>
    A.getD x 0 ^^^ A.getD (x + 5) 0 ^^^ A.getD (x + 10) 0 ^^^
      A.getD (x + 15) 0 ^^^ A.getD (x + 20) 0
  let D := (List.range 5).map fun x =>
    C.getD ((x + 4) % 5) 0 ^^^ rotl64 (C.getD ((x + 1) % 5) 0) 1
  (List.range 25).map fun i => A.getD i 0 ^^^ D.getD (i % 5) 0

/-- Keccak ρ and π steps combined: lane `(x, y)` is rotated and moved to
position `(y, 2x + 3y)`; written here from the target position. -/
def rhopi (A : List Nat) : List Nat :=
  (List.range 25).map fun j =>
    let X := j % 5
    let Y := j / 5
    let x := (X + 3 * Y) % 5
    let y := X
    rotl64 (A.getD (x + 5 * y) 0) (keccakRot.getD (x + 5 * y) 0)

/-- Keccak χ step. -/
def chi (A : List Nat) : List Nat :=
  (List.range 25).map fun j =>
    let x := j % 5
    let y := j / 5
    A.getD j 0 ^^^ ((A.getD ((x + 1) % 5 + 5 * y) 0 ^^^ (2 ^ 64 - 1)) &&&
      A.getD ((x + 2) % 5 + 5 * y) 0)

/-- One Keccak round (θ, ρ, π, χ, ι). -/
def keccakRound (A : List Nat) (rc : Nat) : List Nat :=
  let B := chi (rhopi (theta A))
  B.set 0 (B.getD 0 0 ^^^ rc)

/-- Keccak-f[1600] permutation. -/
def keccakF (A : List Nat) : List Nat :=
  keccakRC.foldl keccakRound A

/-- Rate in bytes for Keccak-256. -/
def keccakRate : Nat := 136

/-- Original Keccak multi-rate padding (domain byte `0x01`), as used by
Ethereum's keccak256 (not the SHA-3 `0x06` variant). -/
def keccakPad (msg : List Nat) : List Nat :=
  let padLen := keccakRate - msg.length % keccakRate
  if padLen = 1 then msg ++ [0x81]
  else msg ++ [0x01] ++ List.replicate (padLen - 2) 0 ++ [0x80]

/-- Little-endian interpretation of a byte list as one lane. -/
def fromLittleEndian (bs : List Nat) : Nat :=
  bs.foldr (fun b acc => acc * 256 + b) 0

/-- The 17 lanes of one 136-byte block. -/
def bytesToLanes (block : List Nat) : List Nat :=
  (List.range 17).map fun i => fromLittleEndian ((block.drop (8 * i)).take 8)

/-- XOR one padded block into the state and permute. -/
def absorbBlock (A : List Nat) (block : List Nat) : List Nat :=
  keccakF ((List.range 25).map fun i => A.getD i 0 ^^^ (bytesToLanes block).getD i 0)

/-- Absorb a padded message block by block (fuel-structured so that the
kernel can evaluate it; the fuel `msg.length` always suffices since each
step consumes 136 bytes). -/
def keccakAbsorbAux : Nat → List Nat → List Nat → List Nat
  | 0, A, _ => A
  | fuel + 1, A, msg =>
    if msg.length ≤ keccakRate then absorbBlock A msg
    else keccakAbsorbAux fuel (absorbBlock A (msg.take keccakRate)) (msg.drop keccakRate)

/-- Absorb a padded message. -/
def keccakAbsorb (A : List Nat) (msg : List Nat) : List Nat :=
  keccakAbsorbAux msg.length A msg

/-- The 8 bytes of one lane, little-endian. -/
def toLittleEndian8 (v : Nat) : List Nat :=
  (List.range 8).map fun i => v >>> (8 * i) % 256

/-- Serialize the state back to bytes. -/
def lanesToBytes (A : List Nat) : List Nat :=
  ((List.range 25).map fun i => toLittleEndian8 (A.getD i 0)).flatten

/-- Keccak-256 of a byte string (`ethers::utils::keccak256`). -/
def keccak256 (msg : List Nat) : List Nat :=
  (lanesToBytes (keccakAbsorb (List.replicate 25 0) (keccakPad msg))).take 32

/-! ## ABI encoding (`ethers::abi::{encode, encode_packed}`) -/

/-- The static token kinds used by `utils.rs` (`ethers::abi::Token`). -/
inductive Token : Type
  | address (a : List Nat)
  | fixedBytes (b : List Nat)
  | uint (v : Nat)

/-- One head word of the word-aligned ABI encoding: addresses are
left-padded with 12 zero bytes, fixed bytes are right-padded to 32,
integers take a full 32-byte big-endian slot. -/
def encodeToken : Token → List Nat
  | Token.address a => List.replicate 12 0 ++ a
  | Token.fixedBytes b => b ++ List.replicate (32 - b.length) 0
  | Token.uint v => toBigEndian32 v

/-- `ethers::abi::encode` restricted to static tokens: the concatenation of
the 32-byte head words. -/
def encode (ts : List Token) : List Nat :=
  (ts.map encodeToken).flatten

/-- One segment of `ethers::abi::encode_packed`: addresses keep their 20
bytes, fixed bytes are kept as-is, `uint256` still takes 32 bytes. -/
def encodePackedToken : Token → List Nat
  | Token.address a => a
  | Token.fixedBytes b => b
  | Token.uint v => toBigEndian32 v

/-- `ethers::abi::encode_packed` restricted to the token kinds above. -/
def encodePacked (ts : List Token) : List Nat :=
  (ts.map encodePackedToken).flatten

/-! ## `utils.rs`: identifier derivation and price arguments -/

/-- `utils.rs` `get_condition_id`. -/
def get_condition_id (oracle question_id : List Nat) (outcome_slot_count : Nat) :
    List Nat :=
  keccak256 (encode
    [Token.address oracle,
     Token.fixedBytes question_id,
     Token.uint outcome_slot_count])

/-- `utils.rs` `get_collection_id`. -/
def get_collection_id (parent_collection_id condition_id : List Nat)
    (index_set : Nat) : List Nat :=
  keccak256 (encode
    [Token.fixedBytes parent_collection_id,
     Token.fixedBytes condition_id,
     Token.uint index_set])

/-- `utils.rs` `get_position_id` (the collection id is re-read as a
`U256` via `from_big_endian`). -/
def get_position_id (collateral_token collection_id : List Nat) : List Nat :=
  keccak256 (encode
    [Token.address collateral_token,
     Token.uint (fromBigEndian collection_id)])

/-- The exact arguments the source hands to `calculate_price`
(`utils.rs` lines 13-28): numerator leg (raw amount and decimals) first,
denominator leg second.  The source then formats
`(num / 10^numDecimals) / (den / 10^denDecimals)` through `f64`; that
floating-point step is not modelled (see the file comment). -/
structure PriceArgs where
  num : Nat
  numDecimals : Nat
  den : Nat
  denDecimals : Nat
deriving DecidableEq, Repr

/-- `utils.rs` `calculate_price`, abstracted to its argument record. -/
def calculate_price (maker_amount maker_decimals taker_amount taker_decimals : Nat) :
    PriceArgs :=
  ⟨maker_amount, maker_decimals, taker_amount, taker_decimals⟩

/-! ## `models.rs` and the log / RPC data model -/

/-- `models.rs` `TradeSide`. -/
inductive TradeSide : Type
  | BUY
  | SELL
  | UNKNOWN
deriving DecidableEq, Repr

/-- An `ethers::types::Log`, restricted to the fields the scanner reads. -/
structure Log where
  address : List Nat
  topics : List (List Nat)
  data : List Nat
  transaction_hash : Option (List Nat)
  log_index : Option Nat
deriving DecidableEq, Repr

/-- A transaction receipt, restricted to its logs. -/
structure Receipt where
  logs : List Log
deriving DecidableEq, Repr

/-- `models.rs` `TradeOutput` (price field as `PriceArgs`, see above). -/
structure TradeOutput where
  tx_hash : String
  log_index : Nat
  exchange : String
  maker : String
  taker : String
  maker_asset_id : String
  taker_asset_id : String
  maker_amount_filled : String
  taker_amount_filled : String
  maker_decimals : Nat
  taker_decimals : Nat
  price : PriceArgs
  token_id : String
  side : TradeSide
deriving DecidableEq, Repr

/-- `models.rs` `MarketInfo`. -/
structure MarketInfo where
  condition_id : String
  question_id : String
  oracle : String
  outcome_slot_count : Nat
  collateral_token : String
  yes_token_id : String
  no_token_id : String
deriving DecidableEq, Repr

/-- The RPC collaborator: `eth_call` of `decimals()` against an address
(`none` models a transport error or revert), and receipt fetch by
transaction hash (`none` merges `Err(_)` and `Ok(None)`, which
`process_logs` treats identically). -/
structure Env where
  decimalsCall : List Nat → Option (List Nat)
  receipt : List Nat → Option Receipt

/-! ## `consts.rs` -/

/-- `consts.rs` `USDC_ADDRESS` (`0x2791Bca1f2de4661ED88A30C99A7a9449Aa84174`). -/
def USDC_ADDRESS : List Nat :=
  [0x27, 0x91, 0xBc, 0xa1, 0xf2, 0xde, 0x46, 0x61, 0xED, 0x88,
   0xA3, 0x0C, 0x99, 0xA7, 0xa9, 0x44, 0x9A, 0xa8, 0x41, 0x74]

/-- `consts.rs` `CONDITION_PREPARATION_EVENT_SIGNATURE`, as ASCII bytes. -/
def CONDITION_PREPARATION_EVENT_SIGNATURE : List Nat :=
  "ConditionPreparation(bytes32,address,bytes32,uint256)".toList.map Char.toNat

/-- The event topic `H256::from(keccak256(CONDITION_PREPARATION_EVENT_SIGNATURE))`
computed in `fetch_market_info` (`scanner.rs` line 52). -/
def conditionPreparationTopic : List Nat :=
  keccak256 CONDITION_PREPARATION_EVENT_SIGNATURE

/-- The fixed ERC-20 `Transfer` topic of `scanner.rs` line 292
(`0xddf252ad1be2c89b69c2b068fc378daa952ba7f163c4a11628f55a4df523b3ef`). -/
def transferTopic : List Nat :=
  [[0xdd, 0xf2, 0x52, 0xad, 0x1b, 0xe2, 0xc8, 0x9b],
   [0x69, 0xc2, 0xb0, 0x68, 0xfc, 0x37, 0x8d, 0xaa],
   [0x95, 0x2b, 0xa7, 0xf1, 0x63, 0xc4, 0xa1, 0x16],
   [0x28, 0xf5, 0x5a, 0x4d, 0xf5, 0x23, 0xb3, 0xef]].flatten

/-! ## `scanner.rs`: decimals probing -/

/-- `scanner.rs` `get_decimals` (lines 375-390).  A successful call with at
least 32 bytes of return data runs `U256::from_big_endian(&result).as_u32()`:
`from_big_endian` asserts the slice is at most 32 bytes and `as_u32` panics
when the value does not fit in a `u32`; both are modelled as
`Except.error ()`.  Shorter return data and failed calls yield `none`. -/
def get_decimals (env : Env) (token : List Nat) : Except Unit (Option Nat) :=
  match env.decimalsCall token with
  | none => Except.ok none
  | some result =>
    if 32 ≤ result.length then
      if result.length ≤ 32 then
        if fromBigEndian result < 2 ^ 32 then
          Except.ok (some (fromBigEndian result))
        else Except.error ()
      else Except.error ()
    else Except.ok none

/-- The candidate token address derived from a non-zero asset id: the low
20 bytes of its 32-byte big-endian form (`scanner.rs` lines 224-227). -/
def assetAddr (asset_id : Nat) : List Nat :=
  (toBigEndian32 asset_id).drop 12

/-- `U256::from_big_endian(&data[0..32])`: the maker asset id of an
`OrderFilled` log (`scanner.rs` lines 218 and 399). -/
def makerAssetOf (log : Log) : Nat :=
  fromBigEndian (log.data.take 32)

/-- `U256::from_big_endian(&data[32..64])`: the taker asset id. -/
def takerAssetOf (log : Log) : Nat :=
  fromBigEndian ((log.data.drop 32).take 32)

/-- `U256::from_big_endian(&data[64..96])`: the maker amount filled. -/
def makerAmountOf (log : Log) : Nat :=
  fromBigEndian ((log.data.drop 64).take 32)

/-- `U256::from_big_endian(&data[96..128])`: the taker amount filled. -/
def takerAmountOf (log : Log) : Nat :=
  fromBigEndian ((log.data.drop 96).take 32)

/-- `process_logs` step 1 (`scanner.rs` lines 202-241): one decoded
`OrderFilled` log kept for the later passes. -/
structure RawTrade where
  log : Log
  maker_asset_id : Nat
  taker_asset_id : Nat
  maker_amount : Nat
  taker_amount : Nat
deriving DecidableEq, Repr

/-- `process_logs` step 1: drop logs with fewer than 128 data bytes, decode
the four 32-byte words, and collect the candidate addresses of the non-zero
asset ids (the source's `potential_tokens` hash set; the unused `tx_hashes`
set of lines 212 and 236-238 is omitted). -/
def collectRaw (logs : List Log) : List RawTrade × List (List Nat) :=
  logs.foldl
    (fun acc log =>
      if log.data.length < 128 then acc
      else
        let maker_asset_id := makerAssetOf log
        let taker_asset_id := takerAssetOf log
        let maker_amount := makerAmountOf log
        let taker_amount := takerAmountOf log
        let pot := acc.2
        let pot := if maker_asset_id ≠ 0 then setInsert pot (assetAddr maker_asset_id) else pot
        let pot := if taker_asset_id ≠ 0 then setInsert pot (assetAddr taker_asset_id) else pot
        (acc.1 ++ [⟨log, maker_asset_id, taker_asset_id, maker_amount, taker_amount⟩], pot))
    ([], [])

/-- One iteration of `process_logs` step 2 (lines 246-253): probe a
candidate address and cache only a success. -/
def probeStep (env : Env) (m : List (List Nat × Nat)) (addr : List Nat) :
    Except Unit (List (List Nat × Nat)) := do
  match ← get_decimals env addr with
  | some dec => pure (mapInsert m addr dec)
  | none => pure m

/-- `process_logs` step 2 (lines 243-253): probe every candidate address and
cache only the successes. -/
def probeTokens (env : Env) (addrs : List (List Nat)) :
    Except Unit (List (List Nat × Nat)) :=
  addrs.foldlM (probeStep env) []

/-- The cache contribution of one probed address: the decimals value on a
successful probe, nothing on a failed one (no negative caching). -/
def probeResult (env : Env) (addr : List Nat) : Option Nat :=
  match get_decimals env addr with
  | Except.ok (some d) => some d
  | _ => none

/-- `process_logs` step 3 (lines 255-279): mark the transaction of every leg
whose candidate address was not resolved, via
`trade.log.transaction_hash.unwrap()` — a panic when the hash is absent. -/
def collectTxsToFetch (decimals_map : List (List Nat × Nat))
    (raw_trades : List RawTrade) : Except Unit (List (List Nat)) :=
  raw_trades.foldlM
    (fun s trade => do
      let s ←
        if trade.maker_asset_id ≠ 0 then
          if (mapLookup decimals_map (assetAddr trade.maker_asset_id)).isNone then
            match trade.log.transaction_hash with
            | some tx => pure (setInsert s tx)
            | none => Except.error ()
          else pure s
        else pure s
      if trade.taker_asset_id ≠ 0 then
        if (mapLookup decimals_map (assetAddr trade.taker_asset_id)).isNone then
          match trade.log.transaction_hash with
          | some tx => pure (setInsert s tx)
          | none => Except.error ()
        else pure s
      else pure s)
    []

/-- The within-receipt value-to-address map of `process_logs` step 4
(lines 294-302): only logs with the fixed `Transfer` topic and exactly
3 topics contribute; `HashMap::insert` lets a later log with the same value
replace an earlier one.  `U256::from_big_endian(&log.data)` asserts the data
is at most 32 bytes. -/
def amountMapStep (m : List (Nat × List Nat)) (log : Log) :
    Except Unit (List (Nat × List Nat)) :=
  if log.topics.head? = some transferTopic ∧ log.topics.length = 3 then do
    let value ← fromBigEndianChecked log.data
    pure (mapInsert m value log.address)
  else pure m

/-- `process_logs` step 4, the per-receipt scan (lines 294-302). -/
def buildAmountMap (logs : List Log) : Except Unit (List (Nat × List Nat)) :=
  logs.foldlM amountMapStep []

/-- Whether a receipt log is a standard ERC-20 `Transfer` (fixed topic,
exactly 3 topics) carrying the value `v` — the contribution condition of
`amountMapStep`. -/
def isTransferLogWith (v : Nat) (l : Log) : Bool :=
  decide (l.topics.head? = some transferTopic) && decide (l.topics.length = 3)
    && decide (fromBigEndian l.data = v)

/-- `process_logs` step 4 (lines 281-305): fetch each marked receipt; absent
or failed receipts are skipped. -/
def fetchReceiptMaps (env : Env) (txs : List (List Nat)) :
    Except Unit (List (List Nat × List (Nat × List Nat))) :=
  txs.foldlM
    (fun m tx =>
      match env.receipt tx with
      | some receipt => do
        let amap ← buildAmountMap receipt.logs
        pure (mapInsert m tx amap)
      | none => pure m)
    []

/-- Decimal resolution for one leg in the final pass of `process_logs`
(lines 310-366): the zero sentinel is 6 unconditionally; otherwise the
cached candidate address, then the receipt value-to-address heuristic
(re-probing and caching the real address), and 18 as the default.  The
`trade.log.transaction_hash.unwrap()` of lines 325 and 353 is the
`Except.error` case. -/
def resolve_leg (env : Env) (decimals_map : List (List Nat × Nat))
    (receipt_token_map : List (List Nat × List (Nat × List Nat)))
    (asset_id amount : Nat) (tx_hash : Option (List Nat)) :
    Except Unit (Nat × List (List Nat × Nat)) :=
  if asset_id = 0 then Except.ok (6, decimals_map)
  else
    match mapLookup decimals_map (assetAddr asset_id) with
    | some d => Except.ok (d, decimals_map)
    | none => do
      let tx ← match tx_hash with
        | some t => pure t
        | none => Except.error ()
      match mapLookup receipt_token_map tx with
      | none => Except.ok (18, decimals_map)
      | some amap =>
        match mapLookup amap amount with
        | none => Except.ok (18, decimals_map)
        | some real_token_addr =>
          match mapLookup decimals_map real_token_addr with
          | some d => Except.ok (d, decimals_map)
          | none => do
            match ← get_decimals env real_token_addr with
            | some d => Except.ok (d, mapInsert decimals_map real_token_addr d)
            | none => Except.ok (18, decimals_map)

/-- The `TradeOutput` record built at `scanner.rs` lines 395-444 once the
checked accesses succeeded (`t2`, `t3` are `topics[2]`, `topics[3]`; `li`
the already-checked `log_index`). -/
def parseFinalRecord (log : Log) (t2 t3 : List Nat)
    (maker_decimals taker_decimals li : Nat) : TradeOutput :=
  let maker := t2.drop 12
  let taker := t3.drop 12
  let maker_asset_id := makerAssetOf log
  let taker_asset_id := takerAssetOf log
  let maker_amount_filled := makerAmountOf log
  let taker_amount_filled := takerAmountOf log
  let priceAssets :=
    if maker_asset_id = 0 then
      (calculate_price maker_amount_filled maker_decimals taker_amount_filled taker_decimals,
       "0", format_u256_hex taker_asset_id)
    else if taker_asset_id = 0 then
      (calculate_price taker_amount_filled taker_decimals maker_amount_filled maker_decimals,
       format_u256_hex maker_asset_id, "0")
    else
      (calculate_price maker_amount_filled maker_decimals taker_amount_filled taker_decimals,
       format_u256_hex maker_asset_id, format_u256_hex taker_asset_id)
  let side := if maker_asset_id = 0 then TradeSide.BUY else TradeSide.SELL
  let token_id := if maker_asset_id = 0 then taker_asset_id else maker_asset_id
  { tx_hash := format_h256 (log.transaction_hash.getD (List.replicate 32 0))
    log_index := li
    exchange := format_address log.address
    maker := format_address maker
    taker := format_address taker
    maker_asset_id := priceAssets.2.1
    taker_asset_id := priceAssets.2.2
    maker_amount_filled := u256_to_string maker_amount_filled
    taker_amount_filled := u256_to_string taker_amount_filled
    maker_decimals := maker_decimals
    taker_decimals := taker_decimals
    price := priceAssets.1
    token_id := format_u256_hex token_id
    side := side }

/-- `scanner.rs` `parse_final` (lines 392-445).  The source indexes
`log.topics[2]`, `log.topics[3]` and the byte ranges up to 128, and runs
`as_u64` on the (defaulted) log index; each would-be panic is
`Except.error ()`.  The function itself never returns `Err`, so the `if let
Ok` at its call site (line 368) never actually drops a record. -/
def parse_final (log : Log) (maker_decimals taker_decimals : Nat) :
    Except Unit TradeOutput :=
  match log.topics.get? 2, log.topics.get? 3 with
  | some t2, some t3 =>
    if log.data.length < 128 then Except.error ()
    else if log.log_index.getD 0 < 2 ^ 64 then
      Except.ok (parseFinalRecord log t2 t3 maker_decimals taker_decimals
        (log.log_index.getD 0))
    else Except.error ()
  | _, _ => Except.error ()

/-- One iteration of `process_logs` step 5 (lines 309-371): resolve both
legs of a raw trade (threading the decimals cache, which the receipt path
extends) and build the output record. -/
def finalStep (env : Env)
    (receipt_token_map : List (List Nat × List (Nat × List Nat)))
    (acc : List (List Nat × Nat) × List TradeOutput) (trade : RawTrade) :
    Except Unit (List (List Nat × Nat) × List TradeOutput) := do
  let (maker_decimals, m1) ← resolve_leg env acc.1 receipt_token_map
    trade.maker_asset_id trade.maker_amount trade.log.transaction_hash
  let (taker_decimals, m2) ← resolve_leg env m1 receipt_token_map
    trade.taker_asset_id trade.taker_amount trade.log.transaction_hash
  let out ← parse_final trade.log maker_decimals taker_decimals
  pure (m2, acc.2 ++ [out])

/-- `process_logs` step 5 (lines 307-372). -/
def finalPass (env : Env) (decimals_map : List (List Nat × Nat))
    (receipt_token_map : List (List Nat × List (Nat × List Nat)))
    (raw_trades : List RawTrade) : Except Unit (List TradeOutput) := do
  let r ← raw_trades.foldlM (finalStep env receipt_token_map) (decimals_map, [])
  pure r.2

/-- `scanner.rs` `process_logs` (lines 198-373). -/
def process_logs (env : Env) (logs : List Log) : Except Unit (List TradeOutput) := do
  let decimals_map ← probeTokens env (collectRaw logs).2
  let txs_to_fetch ← collectTxsToFetch decimals_map (collectRaw logs).1
  let receipt_token_map ← fetchReceiptMaps env txs_to_fetch
  finalPass env decimals_map receipt_token_map (collectRaw logs).1

/-! ## `scanner.rs`: market decoding -/

/-- Unchecked indexing `log.topics[i]` on an `Option`-returning accessor:
the absent case is a Rust index-out-of-bounds panic. -/
def unwrapTopic (o : Option (List Nat)) : Except Unit (List Nat) :=
  match o with
  | some t => Except.ok t
  | none => Except.error ()

/-- The `MarketInfo` construction shared verbatim by `fetch_market_info`
(lines 63-86), `fetch_market_info_by_condition_id` (lines 117-146) and
`fetch_market_events` (lines 167-192): recompute the condition id from the
log's oracle, question id and slot count, derive the YES (`indexSet = 1`)
and NO (`indexSet = 2`) collection and position ids from the *recomputed*
id, and display the *logged* id.  `outcome_slot_count.as_u64()` panics when
the value exceeds `u64`. -/
def buildMarketInfo (condition_id_log oracle_h256 question_id : List Nat)
    (outcome_slot_count : Nat) : Except Unit MarketInfo :=
  if outcome_slot_count < 2 ^ 64 then
    Except.ok
      { condition_id := format_h256 condition_id_log
        question_id := format_h256 question_id
        oracle := format_address (oracle_h256.drop 12)
        outcome_slot_count := outcome_slot_count
        collateral_token := format_address USDC_ADDRESS
        yes_token_id := "0x" ++ bytesToHex (get_position_id USDC_ADDRESS
          (get_collection_id (List.replicate 32 0)
            (get_condition_id (oracle_h256.drop 12) question_id outcome_slot_count) 1))
        no_token_id := "0x" ++ bytesToHex (get_position_id USDC_ADDRESS
          (get_collection_id (List.replicate 32 0)
            (get_condition_id (oracle_h256.drop 12) question_id outcome_slot_count) 2)) }
  else Except.error ()

/-- One iteration of the `fetch_market_events` loop (lines 164-193, scan
mode): logs with fewer than 4 topics are skipped; the body contains no
comparison of the recomputed condition id against the logged one and no
warning, so the emitted-warning flag is literally `false`.
`U256::from_big_endian(&log.data)` asserts the data is at most 32 bytes. -/
def process_market_log (log : Log) : Except Unit (Option (MarketInfo × Bool)) :=
  if log.topics.length < 4 then Except.ok none
  else do
    let outcome_slot_count ← fromBigEndianChecked log.data
    let mi ← buildMarketInfo (log.topics.getD 1 []) (log.topics.getD 2 [])
      (log.topics.getD 3 []) outcome_slot_count
    pure (some (mi, false))

/-- One iteration of the `fetch_market_info` receipt loop (lines 54-88,
manual transaction mode): only logs whose first topic is the
`ConditionPreparation` topic are considered, logs with fewer than 4 topics
are skipped, and — as in scan mode — no comparison or warning occurs. -/
def process_market_prep_log (log : Log) : Except Unit (Option (MarketInfo × Bool)) :=
  if log.topics.head? = some conditionPreparationTopic then
    if log.topics.length < 4 then Except.ok none
    else do
      let outcome_slot_count ← fromBigEndianChecked log.data
      let mi ← buildMarketInfo (log.topics.getD 1 []) (log.topics.getD 2 [])
        (log.topics.getD 3 []) outcome_slot_count
      pure (some (mi, false))
  else Except.ok none

/-- The body of `fetch_market_info_by_condition_id` on the first matching
log (lines 108-147): the topics are indexed without a length check
(`log.topics[1]`…, a panic when absent), the condition id is recomputed and
compared against the *caller-supplied* `condition_id`, and the
`eprintln!` warning of line 123 fires exactly when they differ; the Bool
returned here is that warning flag. -/
def process_market_log_by_id (condition_id : List Nat) (log : Log) :
    Except Unit (MarketInfo × Bool) := do
  let t1 ← unwrapTopic (log.topics.get? 1)
  let t2 ← unwrapTopic (log.topics.get? 2)
  let t3 ← unwrapTopic (log.topics.get? 3)
  let outcome_slot_count ← fromBigEndianChecked log.data
  let mi ← buildMarketInfo t1 t2 t3 outcome_slot_count
  pure (mi, decide (get_condition_id (t2.drop 12) t3 outcome_slot_count ≠ condition_id))

/-! ## Concrete fixtures used by witnesses and counterexamples -/

/-- Flip the first byte of a byte string (used to build a log whose stored
condition id provably differs from the recomputed one). -/
def flipByte : List Nat → List Nat
  | [] => []
  | b :: rest => (b ^^^ 255) :: rest

/-- An environment whose `decimals()` probe always fails and that has no
receipts. -/
def emptyEnv : Env :=
  ⟨fun _ => none, fun _ => none⟩

/-- A well-formed `OrderFilled` log whose maker and taker asset ids are both
zero. -/
def exBothZeroLog : Log :=
  { address := List.replicate 20 0
    topics := List.replicate 4 (List.replicate 32 0)
    data := List.replicate 128 0
    transaction_hash := some (List.replicate 32 0)
    log_index := some 0 }

/-- An `OrderFilled` log with 128 data bytes but no topics at all. -/
def exShortTopicsLog : Log :=
  { address := List.replicate 20 0
    topics := []
    data := List.replicate 128 0
    transaction_hash := some (List.replicate 32 0)
    log_index := some 0 }

/-- A log with fewer than 128 data bytes. -/
def exShortDataLog : Log :=
  { address := List.replicate 20 0
    topics := []
    data := List.replicate 100 0
    transaction_hash := none
    log_index := none }

/-- A well-formed `OrderFilled` log with maker asset id 1 (so a candidate
address is derived and, under `emptyEnv`, stays unresolved) and no
transaction hash. -/
def exNoTxLog : Log :=
  { address := List.replicate 20 0
    topics := List.replicate 4 (List.replicate 32 0)
    data := (List.replicate 31 0 ++ [1]) ++ List.replicate 96 0
    transaction_hash := none
    log_index := some 0 }

/-- A well-formed `OrderFilled` log with maker asset id 1 and taker asset
id 0 (a SELL), and a transaction hash. -/
def exSellLog : Log :=
  { address := List.replicate 20 0
    topics := List.replicate 4 (List.replicate 32 0)
    data := (List.replicate 31 0 ++ [1]) ++ List.replicate 96 0
    transaction_hash := some (List.replicate 32 0)
    log_index := some 0 }

/-- Two ERC-20 `Transfer` receipt logs carrying the same value 5, emitted by
different contract addresses. -/
def exTransferLogA : Log :=
  { address := List.replicate 20 0xaa
    topics := [transferTopic, List.replicate 32 0, List.replicate 32 0]
    data := List.replicate 31 0 ++ [5]
    transaction_hash := none
    log_index := none }

/-- Second transfer log with the same value, different emitter. -/
def exTransferLogB : Log :=
  { address := List.replicate 20 0xbb
    topics := [transferTopic, List.replicate 32 0, List.replicate 32 0]
    data := List.replicate 31 0 ++ [5]
    transaction_hash := none
    log_index := none }

/-- The condition id the scanner recomputes for a zero oracle, a zero
question id and outcome slot count 2. -/
def exCalculatedCid : List Nat :=
  get_condition_id (List.replicate 20 0) (List.replicate 32 0) 2

/-- A `ConditionPreparation` log whose stored condition id (topic 1)
differs from the recomputed one in its first byte. -/
def exMarketLog : Log :=
  { address := List.replicate 20 0
    topics := [List.replicate 32 0, flipByte exCalculatedCid,
               List.replicate 32 0, List.replicate 32 0]
    data := toBigEndian32 2
    transaction_hash := none
    log_index := none }

/-- A well-formed `ConditionPreparation` log with all-zero topics and
outcome slot count 2. -/
def exMarketLog2 : Log :=
  { address := List.replicate 20 0
    topics := List.replicate 4 (List.replicate 32 0)
    data := toBigEndian32 2
    transaction_hash := none
    log_index := none }

/-- Placeholder record used as an `Option.getD` default. -/
def defaultMarketInfo : MarketInfo :=
  ⟨"", "", "", 0, "", "", ""⟩

/-- The market record the scan path produces for `exMarketLog2`. -/
def exMarketInfo : MarketInfo :=
  ((process_market_log exMarketLog2).toOption.join.getD (defaultMarketInfo, false)).1

/-- 32 bytes of `decimals()` return data encoding exactly `2 ^ 32` (the
smallest value on which `U256::as_u32` panics). -/
def exOverflowBytes : List Nat :=
  List.replicate 27 0 ++ [1, 0, 0, 0, 0]

/-- An environment whose `decimals()` probe always returns
`exOverflowBytes`. -/
def exOverflowEnv : Env :=
  ⟨fun _ => some exOverflowBytes, fun _ => none⟩

/-- An environment whose `decimals()` probe always returns 32 bytes
encoding 18. -/
def exEnv18 : Env :=
  ⟨fun _ => some (List.replicate 31 0 ++ [18]), fun _ => none⟩

end PolyScan

deriving instance DecidableEq for Except

namespace PolyScan

/-! ## General lemmas about the embedding -/

/-- Keccak-256 of the empty message (published test vector
`c5d24601...5d85a470`), validating padding, permutation and output
serialization of the `keccak256` embedding. -/
theorem keccak256_empty_vector :
    keccak256 [] =
      [0xc5, 0xd2, 0x46, 0x01, 0x86, 0xf7, 0x23, 0x3c, 0x92, 0x7e, 0x7d, 0xb2,
       0xdc, 0xc7, 0x03, 0xc0, 0xe5, 0x00, 0xb6, 0x53, 0xca, 0x82, 0x27, 0x3b,
       0x7b, 0xfa, 0xd8, 0x04, 0x5d, 0x85, 0xa4, 0x70] := by
  decide

/-- Keccak-256 of `"abc"` (published test vector `4e03657a...a12d6c45`). -/
theorem keccak256_abc_vector :
    keccak256 [0x61, 0x62, 0x63] =
      [0x4e, 0x03, 0x65, 0x7a, 0xea, 0x45, 0xa9, 0x4f, 0xc7, 0xd4, 0x7b, 0xa8,
       0x26, 0xc8, 0xd6, 0x67, 0xc0, 0xd1, 0xe6, 0xe3, 0x3a, 0x64, 0xa0, 0x36,
       0xec, 0x44, 0xf5, 0x8f, 0xa1, 0x2d, 0x6c, 0x45] := by
  decide

/-- The computed `ConditionPreparation` topic agrees with the topic0 the
deployed CTF contract emits (`ab3760c3...661e4177`), validating the
signature-string hashing path of `fetch_market_info`. -/
theorem conditionPreparationTopic_vector :
    conditionPreparationTopic =
      [0xab, 0x37, 0x60, 0xc3, 0xbd, 0x2b, 0xb3, 0x8b, 0x5b, 0xcf, 0x54, 0xdc,
       0x79, 0x80, 0x2e, 0xd6, 0x73, 0x38, 0xb4, 0xcf, 0x29, 0xf3, 0x05, 0x4d,
       0xed, 0x67, 0xed, 0x24, 0x66, 0x1e, 0x41, 0x77] := by
  decide

theorem toBigEndian32_length (v : Nat) : (toBigEndian32 v).length = 32 := by
  simp [toBigEndian32]

theorem toLittleEndian8_length (v : Nat) : (toLittleEndian8 v).length = 8 := by
  simp [toLittleEndian8]

theorem lanesToBytes_length (A : List Nat) : (lanesToBytes A).length = 200 := by
  unfold lanesToBytes
  rw [List.length_flatten, List.map_map]
  have h : List.map (List.length ∘ fun i => toLittleEndian8 (A.getD i 0)) (List.range 25)
      = List.replicate 25 8 := by
    apply List.eq_replicate_iff.2
    refine ⟨by simp, ?_⟩
    intro b hb
    rcases List.mem_map.1 hb with ⟨i, _, rfl⟩
    simp [toLittleEndian8]
  rw [h]
  simp

theorem keccak256_length (msg : List Nat) : (keccak256 msg).length = 32 := by
  simp [keccak256, lanesToBytes_length]

theorem keccak256_ne_nil (msg : List Nat) : keccak256 msg ≠ [] := by
  intro h
  have := keccak256_length msg
  rw [h] at this
  simp at this

theorem flipByte_ne (bs : List Nat) (h : bs ≠ []) : flipByte bs ≠ bs := by
  cases bs with
  | nil => exact absurd rfl h
  | cons b rest =>
    simp only [flipByte, ne_eq, List.cons.injEq, not_and]
    intro hb
    have h2 : b ^^^ 255 ^^^ b = b ^^^ b := by rw [hb]
    rw [Nat.xor_comm b 255, Nat.xor_assoc, Nat.xor_self, Nat.xor_zero] at h2
    simp at h2

theorem except_bind_ok {α β : Type} {e : Except Unit α} {f : α → Except Unit β}
    {c : β} (h : (e >>= f) = Except.ok c) :
    ∃ b, e = Except.ok b ∧ f b = Except.ok c := by
  cases e with
  | ok b => exact ⟨b, rfl, h⟩
  | error u => simp [Bind.bind, Except.bind] at h

theorem except_bind_error {α β : Type} (e : Except Unit α) (f : α → Except Unit β)
    (h : ∀ a, f a = Except.error ()) : (e >>= f) = Except.error () := by
  cases e with
  | ok a => exact h a
  | error u => cases u; rfl

theorem bind_error_of_error {α β : Type} (e : Except Unit α) (f : α → Except Unit β)
    (he : e = Except.error ()) : (e >>= f) = Except.error () := by
  rw [he]
  rfl

theorem mapLookup_nil {α β : Type} [DecidableEq α] (k : α) :
    mapLookup ([] : List (α × β)) k = none := rfl

theorem mapLookup_insert_self {α β : Type} [DecidableEq α]
    (m : List (α × β)) (k : α) (v : β) :
    mapLookup (mapInsert m k v) k = some v := by
  unfold mapLookup mapInsert
  rw [List.find?_append]
  have hnone : (m.filter fun p => decide (p.1 ≠ k)).find? (fun p => decide (p.1 = k)) = none := by
    apply List.find?_eq_none.2
    intro p hp
    have hmem := List.of_mem_filter hp
    simp at hmem
    simp [hmem]
  rw [hnone, List.find?_cons_of_pos _ (by simp)]
  simp [Option.or]

theorem mapLookup_insert_ne {α β : Type} [DecidableEq α]
    (m : List (α × β)) (k k' : α) (v : β) (h : k' ≠ k) :
    mapLookup (mapInsert m k v) k' = mapLookup m k' := by
  unfold mapLookup mapInsert
  rw [List.find?_append]
  have hlast : List.find? (fun p => decide (p.1 = k')) [(k, v)] = none := by
    rw [List.find?_cons_of_neg _ (by simp; exact fun hh => h hh.symm)]
    rfl
  rw [hlast]
  have hfilter : (m.filter fun p => decide (p.1 ≠ k)).find? (fun p => decide (p.1 = k'))
      = m.find? (fun p => decide (p.1 = k')) := by
    induction m with
    | nil => rfl
    | cons a m ih =>
      rw [List.filter_cons]
      by_cases ha : a.1 = k
      · have hna : ¬ a.1 = k' := fun hh => h (by rw [← hh]; exact ha)
        rw [if_neg (by simp [ha]), ih, List.find?_cons_of_neg _ (by simp [hna])]
      · rw [if_pos (by simp [ha])]
        by_cases hak : a.1 = k'
        · rw [List.find?_cons_of_pos _ (by simp [hak]),
            List.find?_cons_of_pos _ (by simp [hak])]
        · rw [List.find?_cons_of_neg _ (by simp [hak]),
            List.find?_cons_of_neg _ (by simp [hak]), ih]
  rw [hfilter]
  cases m.find? (fun p => decide (p.1 = k')) <;> simp [Option.or]

theorem parse_final_ok_inv {log : Log} {md td : Nat} {out : TradeOutput}
    (h : parse_final log md td = Except.ok out) :
    ∃ t2 t3, log.topics.get? 2 = some t2 ∧ log.topics.get? 3 = some t3
      ∧ 128 ≤ log.data.length ∧ log.log_index.getD 0 < 2 ^ 64
      ∧ out = parseFinalRecord log t2 t3 md td (log.log_index.getD 0) := by
  unfold parse_final at h
  split at h
  · by_cases hlen : log.data.length < 128
    · rw [if_pos hlen] at h; cases h
    · rw [if_neg hlen] at h
      by_cases hli : log.log_index.getD 0 < 2 ^ 64
      · rw [if_pos hli] at h
        cases h
        exact ⟨_, _, by assumption, by assumption, Nat.le_of_not_lt hlen, hli, rfl⟩
      · rw [if_neg hli] at h; cases h
  · cases h

theorem parse_final_topics_short (log : Log) (md td : Nat)
    (h : log.topics.length < 4) : parse_final log md td = Except.error () := by
  unfold parse_final
  have h3 : log.topics.get? 3 = none := List.get?_eq_none.mpr (by omega)
  cases h2 : log.topics.get? 2 <;> rw [h3]

theorem except_ok_of_ne_error {α : Type} (e : Except Unit α)
    (h : e ≠ Except.error ()) : ∃ v, e = Except.ok v := by
  cases e with
  | ok v => exact ⟨v, rfl⟩
  | error u => cases u; exact absurd rfl h

theorem probe_fold_lookup (env : Env) (a : List Nat) :
    ∀ (addrs : List (List Nat)) (m0 m : List (List Nat × Nat)),
      List.foldlM (probeStep env) m0 addrs = Except.ok m →
      mapLookup m a
        = (if a ∈ addrs then probeResult env a else none).or (mapLookup m0 a) := by
  intro addrs
  induction addrs with
  | nil =>
    intro m0 m h
    cases h
    simp [Option.or]
  | cons x xs ih =>
    intro m0 m h
    rw [List.foldlM_cons] at h
    obtain ⟨m1, hstep, hrest⟩ := except_bind_ok h
    have ihm := ih m1 m hrest
    unfold probeStep at hstep
    obtain ⟨r, hr, hm1⟩ := except_bind_ok hstep
    by_cases hax : a = x
    · subst hax
      cases r with
      | some d =>
        cases hm1
        have hpr : probeResult env a = some d := by simp [probeResult, hr]
        rw [ihm, mapLookup_insert_self, hpr]
        by_cases hmem : a ∈ xs <;> simp [hmem, Option.or]
      | none =>
        cases hm1
        have hpr : probeResult env a = none := by simp [probeResult, hr]
        rw [ihm, hpr]
        by_cases hmem : a ∈ xs <;> simp [hmem, Option.or]
    · have hlook : mapLookup m1 a = mapLookup m0 a := by
        cases r with
        | some d => cases hm1; exact mapLookup_insert_ne m0 x a d hax
        | none => cases hm1; rfl
      rw [ihm, hlook]
      by_cases hmem : a ∈ xs <;> simp [hmem, hax, Option.or]

theorem probe_fold_no_error (env : Env) :
    ∀ (addrs : List (List Nat)) (m0 : List (List Nat × Nat)),
      (∀ x ∈ addrs, get_decimals env x ≠ Except.error ()) →
      ∃ m, List.foldlM (probeStep env) m0 addrs = Except.ok m := by
  intro addrs
  induction addrs with
  | nil =>
    intro m0 _
    exact ⟨m0, rfl⟩
  | cons x xs ih =>
    intro m0 hne
    obtain ⟨r, hr⟩ := except_ok_of_ne_error _ (hne x (List.mem_cons_self x xs))
    have hstep : ∃ m1, probeStep env m0 x = Except.ok m1 := by
      unfold probeStep
      rw [hr]
      cases r with
      | some d => exact ⟨_, rfl⟩
      | none => exact ⟨_, rfl⟩
    obtain ⟨m1, hm1⟩ := hstep
    obtain ⟨m, hm⟩ := ih m1 (fun y hy => hne y (List.mem_cons_of_mem _ hy))
    refine ⟨m, ?_⟩
    rw [List.foldlM_cons, hm1]
    exact hm

theorem amountMap_fold_lookup (v : Nat) :
    ∀ (logs : List Log) (m0 m : List (Nat × List Nat)),
      List.foldlM amountMapStep m0 logs = Except.ok m →
      mapLookup m v
        = ((logs.reverse.find? (isTransferLogWith v)).map Log.address).or (mapLookup m0 v) := by
  intro logs
  induction logs with
  | nil =>
    intro m0 m h
    cases h
    simp [Option.or]
  | cons l ls ih =>
    intro m0 m h
    rw [List.foldlM_cons] at h
    obtain ⟨m1, hstep, hrest⟩ := except_bind_ok h
    have ihm := ih m1 m hrest
    rw [List.reverse_cons, List.find?_append]
    unfold amountMapStep at hstep
    by_cases hc : l.topics.head? = some transferTopic ∧ l.topics.length = 3
    · rw [if_pos hc] at hstep
      obtain ⟨value, hval, hpure⟩ := except_bind_ok hstep
      unfold fromBigEndianChecked at hval
      by_cases hlen : l.data.length ≤ 32
      · rw [if_pos hlen] at hval
        cases hval
        cases hpure
        by_cases hv : fromBigEndian l.data = v
        · have hfind : List.find? (isTransferLogWith v) [l] = some l :=
            List.find?_cons_of_pos _ (by simp [isTransferLogWith, hc.1, hc.2, hv])
          rw [hv] at ihm
          rw [mapLookup_insert_self] at ihm
          rw [hfind, ihm]
          cases hf : ls.reverse.find? (isTransferLogWith v) <;> simp [Option.or]
        · have hfind : List.find? (isTransferLogWith v) [l] = none := by
            rw [List.find?_cons_of_neg _ (by simp [isTransferLogWith, hv])]
            rfl
          rw [mapLookup_insert_ne _ _ _ _ (fun hh => hv hh.symm)] at ihm
          rw [hfind, ihm]
          cases hf : ls.reverse.find? (isTransferLogWith v) <;> simp [Option.or]
      · rw [if_neg hlen] at hval; cases hval
    · rw [if_neg hc] at hstep
      cases hstep
      have hfind : List.find? (isTransferLogWith v) [l] = none := by
        rw [List.find?_cons_of_neg _ (by
          simp [isTransferLogWith]
          intro h1 h2 _
          exact absurd ⟨h1, h2⟩ hc)]
        rfl
      rw [hfind, ihm]
      cases hf : ls.reverse.find? (isTransferLogWith v) <;> simp [Option.or]

/-! ## C1 -/

/-- C1: each of `get_condition_id`, `get_collection_id` and
`get_position_id` returns keccak256 of the word-aligned ABI encoding of its
arguments — every scalar in a full 32-byte slot, the address slots
left-padded with 12 zero bytes — and for the two address-bearing
derivations this encoding differs from the tightly packed concatenation
(for `get_collection_id`, whose arguments are two 32-byte words and a
`uint256`, the packed and word-aligned encodings coincide, so the returned
hash is keccak256 of the word-aligned encoding there as well). -/
theorem identifier_derivation_word_aligned
    (oracle question_id parent cond coll collat : List Nat) (n iset : Nat)
    (hO : oracle.length = 20) (hQ : question_id.length = 32)
    (hP : parent.length = 32) (hC : cond.length = 32) (hK : collat.length = 20) :
    get_condition_id oracle question_id n
        = keccak256 ((List.replicate 12 0 ++ oracle) ++ question_id ++ toBigEndian32 n)
    ∧ get_collection_id parent cond iset
        = keccak256 (parent ++ cond ++ toBigEndian32 iset)
    ∧ get_position_id collat coll
        = keccak256 ((List.replicate 12 0 ++ collat) ++ toBigEndian32 (fromBigEndian coll))
    ∧ (List.replicate 12 0 ++ oracle) ++ question_id ++ toBigEndian32 n
        ≠ encodePacked [Token.address oracle, Token.fixedBytes question_id, Token.uint n]
    ∧ (List.replicate 12 0 ++ collat) ++ toBigEndian32 (fromBigEndian coll)
        ≠ encodePacked [Token.address collat, Token.uint (fromBigEndian coll)] := by
  refine ⟨?_, ?_, ?_, ?_, ?_⟩
  · have henc : encode [Token.address oracle, Token.fixedBytes question_id, Token.uint n]
        = (List.replicate 12 0 ++ oracle) ++ question_id ++ toBigEndian32 n := by
      simp [encode, encodeToken, hQ]
    rw [get_condition_id, henc]
  · have henc : encode [Token.fixedBytes parent, Token.fixedBytes cond, Token.uint iset]
        = parent ++ cond ++ toBigEndian32 iset := by
      simp [encode, encodeToken, hP, hC]
    rw [get_collection_id, henc]
  · have henc : encode [Token.address collat, Token.uint (fromBigEndian coll)]
        = (List.replicate 12 0 ++ collat) ++ toBigEndian32 (fromBigEndian coll) := by
      simp [encode, encodeToken]
    rw [get_position_id, henc]
  · intro hEq
    have hl := congrArg List.length hEq
    simp [encodePacked, encodePackedToken, toBigEndian32_length, hO, hQ] at hl
  · intro hEq
    have hl := congrArg List.length hEq
    simp [encodePacked, encodePackedToken, toBigEndian32_length, hK] at hl

/-- Witness for C1 at concrete 20-byte addresses and 32-byte words. -/
theorem identifier_derivation_word_aligned_witness :
    (List.replicate 20 1).length = 20
    ∧ get_condition_id (List.replicate 20 1) (List.replicate 32 2) 2
        = keccak256 ((List.replicate 12 0 ++ List.replicate 20 1)
            ++ List.replicate 32 2 ++ toBigEndian32 2) :=
  ⟨by decide,
   (identifier_derivation_word_aligned (List.replicate 20 1) (List.replicate 32 2)
      (List.replicate 32 0) (List.replicate 32 3) (List.replicate 32 4)
      (List.replicate 20 5) 2 1
      (by decide) (by decide) (by decide) (by decide) (by decide)).1⟩

/-! ## C6 -/

/-- C6: the per-receipt value-to-address map is built only from receipt
logs whose topic0 is the fixed ERC-20 `Transfer` topic and which have
exactly 3 topics, and looking up a value returns exactly the emitting
contract address of the *last* such log (in receipt log order) carrying
that value — so on a duplicate value the map keeps one entry, the last
log's. -/
theorem amount_map_last_wins (logs : List Log) (m : List (Nat × List Nat)) (v : Nat)
    (h : buildAmountMap logs = Except.ok m) :
    mapLookup m v = (logs.reverse.find? (isTransferLogWith v)).map Log.address := by
  have hfold := amountMap_fold_lookup v logs [] m h
  rw [hfold, mapLookup_nil]
  cases hf : logs.reverse.find? (isTransferLogWith v) <;> simp [Option.or]

/-- Witness for C6: two `Transfer` logs in one receipt carry the identical
value 5; the map keeps a single entry and it is the second (later) log's
emitter address. -/
theorem amount_map_last_wins_witness :
    buildAmountMap [exTransferLogA, exTransferLogB]
        = Except.ok [(5, List.replicate 20 0xbb)]
    ∧ mapLookup [(5, List.replicate 20 0xbb)] 5 = some exTransferLogB.address :=
  ⟨by decide,
   (amount_map_last_wins [exTransferLogA, exTransferLogB]
      [(5, List.replicate 20 0xbb)] 5 (by decide)).trans (by decide)⟩

/-! ## C5 -/

/-- C5 counterexample: a successful `decimals()` call whose 32 return bytes
encode exactly `2 ^ 32`.  The claim predicts the low 32 bits (here `0`) are
taken; the code instead runs the checked `U256::as_u32`, which panics
(modelled as `Except.error ()`), so no value is yielded and no cache entry
is written. -/
theorem get_decimals_lowbits_counterexample :
    get_decimals exOverflowEnv (List.replicate 20 0) = Except.error ()
    ∧ fromBigEndian exOverflowBytes % 2 ^ 32 = 0
    ∧ get_decimals exOverflowEnv (List.replicate 20 0)
        ≠ Except.ok (some (fromBigEndian exOverflowBytes % 2 ^ 32)) := by
  exact ⟨by decide, by decide, by decide⟩

/-- C5 (amended): a successful `decimals()` call returning exactly 32 bytes
that encode a value below `2 ^ 32` yields that value and populates the
address-keyed cache; a successful call returning 32 bytes encoding a value
of `2 ^ 32` or more, or more than 32 bytes, panics (checked `as_u32` /
`from_big_endian`); a call that errors or returns fewer than 32 bytes
leaves the asset unresolved, caches no negative result, and — as long as no
probe panics — never aborts the batch. -/
theorem get_decimals_probe_spec (env : Env) (a bs : List Nat)
    (addrs : List (List Nat)) (m : List (List Nat × Nat)) :
    (env.decimalsCall a = none → get_decimals env a = Except.ok none)
    ∧ (env.decimalsCall a = some bs → bs.length < 32 →
        get_decimals env a = Except.ok none)
    ∧ (env.decimalsCall a = some bs → bs.length = 32 → fromBigEndian bs < 2 ^ 32 →
        get_decimals env a = Except.ok (some (fromBigEndian bs)))
    ∧ (env.decimalsCall a = some bs → bs.length = 32 → 2 ^ 32 ≤ fromBigEndian bs →
        get_decimals env a = Except.error ())
    ∧ (env.decimalsCall a = some bs → 32 < bs.length →
        get_decimals env a = Except.error ())
    ∧ (probeTokens env addrs = Except.ok m → a ∈ addrs →
        mapLookup m a = probeResult env a)
    ∧ (probeTokens env addrs = Except.ok m → a ∉ addrs → mapLookup m a = none)
    ∧ ((∀ x ∈ addrs, get_decimals env x ≠ Except.error ()) →
        probeTokens env addrs ≠ Except.error ()) := by
  refine ⟨?_, ?_, ?_, ?_, ?_, ?_, ?_, ?_⟩
  · intro hc
    simp [get_decimals, hc]
  · intro hc hlen
    simp [get_decimals, hc, Nat.not_le.2 hlen, if_neg]
  · intro hc hlen hv
    simp [get_decimals, hc, hlen, hv]
    omega
  · intro hc hlen hv
    simp [get_decimals, hc, hlen, Nat.not_lt.2 hv]
    omega
  · intro hc hlen
    simp [get_decimals, hc, Nat.le_of_lt hlen, Nat.not_le.2 hlen]
  · intro h hmem
    have hfold := probe_fold_lookup env a addrs [] m h
    rw [hfold, if_pos hmem, mapLookup_nil]
    cases probeResult env a <;> simp [Option.or]
  · intro h hmem
    have hfold := probe_fold_lookup env a addrs [] m h
    rw [hfold, if_neg hmem, mapLookup_nil]
    simp [Option.or]
  · intro hne habs
    obtain ⟨m', hm'⟩ := probe_fold_no_error env addrs [] hne
    unfold probeTokens at habs
    rw [hm'] at habs
    cases habs

/-- Witness for C5 at a concrete environment returning 32 bytes encoding
18: the probe yields 18 and the cache keyed by the probed address holds
exactly that probe result. -/
theorem get_decimals_probe_spec_witness :
    exEnv18.decimalsCall (List.replicate 20 7) = some (List.replicate 31 0 ++ [18])
    ∧ (List.replicate 31 0 ++ [18]).length = 32
    ∧ fromBigEndian (List.replicate 31 0 ++ [18]) < 2 ^ 32
    ∧ get_decimals exEnv18 (List.replicate 20 7)
        = Except.ok (some (fromBigEndian (List.replicate 31 0 ++ [18])))
    ∧ probeTokens exEnv18 [List.replicate 20 7]
        = Except.ok [(List.replicate 20 7, 18)]
    ∧ mapLookup [(List.replicate 20 7, 18)] (List.replicate 20 7)
        = probeResult exEnv18 (List.replicate 20 7) := by
  refine ⟨by decide, by decide, by decide, ?_, by decide, ?_⟩
  · exact (get_decimals_probe_spec exEnv18 (List.replicate 20 7)
      (List.replicate 31 0 ++ [18]) [] []).2.2.1 (by decide) (by decide) (by decide)
  · exact (get_decimals_probe_spec exEnv18 (List.replicate 20 7)
      (List.replicate 31 0 ++ [18]) [List.replicate 20 7]
      [(List.replicate 20 7, 18)]).2.2.2.2.2.1 (by decide) (by decide)

/-! ## C2 -/

/-- C2: for every successfully decoded `OrderFilled` record, a zero maker
asset id gives a BUY whose price arguments are (maker amount, maker
decimals) over (taker amount, taker decimals) — collateral over outcome
token — and whose token id is the taker asset id; a non-zero maker asset id
gives a SELL whose price arguments are (taker amount over maker amount)
when the taker asset id is zero but stay maker-over-taker (the maker-leg
convention) when both legs are non-zero, and whose token id is the maker
asset id (so on both-zero and both-non-zero legs the maker leg's
interpretation wins). -/
theorem trade_side_price_token (log : Log) (md td : Nat) (out : TradeOutput)
    (h : parse_final log md td = Except.ok out) :
    (makerAssetOf log = 0 →
        out.side = TradeSide.BUY
        ∧ out.price = calculate_price (makerAmountOf log) md (takerAmountOf log) td
        ∧ out.token_id = format_u256_hex (takerAssetOf log))
    ∧ (makerAssetOf log ≠ 0 →
        out.side = TradeSide.SELL
        ∧ (takerAssetOf log = 0 →
            out.price = calculate_price (takerAmountOf log) td (makerAmountOf log) md)
        ∧ (takerAssetOf log ≠ 0 →
            out.price = calculate_price (makerAmountOf log) md (takerAmountOf log) td)
        ∧ out.token_id = format_u256_hex (makerAssetOf log)) := by
  obtain ⟨t2, t3, h2, h3, hlen, hli, rfl⟩ := parse_final_ok_inv h
  constructor
  · intro hm
    exact ⟨by simp [parseFinalRecord, hm], by simp [parseFinalRecord, hm],
      by simp [parseFinalRecord, hm]⟩
  · intro hm
    refine ⟨by simp [parseFinalRecord, hm], ?_, ?_, by simp [parseFinalRecord, hm]⟩
    · intro ht
      simp [parseFinalRecord, hm, ht]
    · intro ht
      simp [parseFinalRecord, hm, ht]

/-- Witness for C2 at a concrete SELL log (maker asset id 1, taker asset
id 0). -/
theorem trade_side_price_token_witness :
    parse_final exSellLog 18 6
        = Except.ok (parseFinalRecord exSellLog (List.replicate 32 0)
            (List.replicate 32 0) 18 6 0)
    ∧ (parseFinalRecord exSellLog (List.replicate 32 0) (List.replicate 32 0)
        18 6 0).side = TradeSide.SELL
    ∧ (parseFinalRecord exSellLog (List.replicate 32 0) (List.replicate 32 0)
        18 6 0).price
        = calculate_price (takerAmountOf exSellLog) 6 (makerAmountOf exSellLog) 18 := by
  have h : parse_final exSellLog 18 6
      = Except.ok (parseFinalRecord exSellLog (List.replicate 32 0)
          (List.replicate 32 0) 18 6 0) := by decide
  exact ⟨h, ((trade_side_price_token exSellLog 18 6 _ h).2 (by decide)).1,
    ((trade_side_price_token exSellLog 18 6 _ h).2 (by decide)).2.1 (by decide)⟩

/-! ## C3 -/

/-- C3 counterexample: an `OrderFilled` log whose maker *and* taker asset
ids are both zero.  Both legs resolve to decimals 6, the maker leg is
displayed as `"0"`, but the taker leg — an asset id equal to 0 — is
displayed as `"0x0"`, not as the literal `"0"` the claim requires for
every zero asset id. -/
theorem zero_sentinel_display_counterexample :
    (process_logs emptyEnv [exBothZeroLog]).map
        (List.map fun o => (o.maker_asset_id, o.taker_asset_id))
      = Except.ok [("0", "0x0")]
    ∧ takerAssetOf exBothZeroLog = 0
    ∧ ("0x0" : String) ≠ "0" := by
  exact ⟨by decide, by decide, by decide⟩

/-- C3 (amended): a zero asset id always resolves to decimals 6, bypassing
every probing phase (for any cache, receipt map and environment); the maker
leg's zero asset id is displayed as `"0"`, and the taker leg's zero asset id
is displayed as `"0"` when the maker asset id is non-zero but as `"0x0"`
when the maker asset id is also zero; a non-zero asset id that remains
unresolved after every phase (cache miss plus: no receipt entry, or no
amount match, or a failed re-probe) gets the default decimals 18. -/
theorem zero_sentinel_decimals_display :
    (∀ env m rm amt txh, resolve_leg env m rm 0 amt txh = Except.ok (6, m))
    ∧ (∀ log md td out, parse_final log md td = Except.ok out →
        (makerAssetOf log = 0 → out.maker_asset_id = "0")
        ∧ (makerAssetOf log ≠ 0 → takerAssetOf log = 0 → out.taker_asset_id = "0")
        ∧ (makerAssetOf log = 0 → takerAssetOf log = 0 → out.taker_asset_id = "0x0"))
    ∧ (∀ env m rm a amt tx, a ≠ 0 → mapLookup m (assetAddr a) = none →
        (mapLookup rm tx = none →
            resolve_leg env m rm a amt (some tx) = Except.ok (18, m))
        ∧ (∀ amap, mapLookup rm tx = some amap → mapLookup amap amt = none →
            resolve_leg env m rm a amt (some tx) = Except.ok (18, m))
        ∧ (∀ amap ra, mapLookup rm tx = some amap → mapLookup amap amt = some ra →
            mapLookup m ra = none → get_decimals env ra = Except.ok none →
            resolve_leg env m rm a amt (some tx) = Except.ok (18, m))) := by
  refine ⟨?_, ?_, ?_⟩
  · intro env m rm amt txh
    simp [resolve_leg]
  · intro log md td out h
    obtain ⟨t2, t3, h2, h3, hlen, hli, rfl⟩ := parse_final_ok_inv h
    refine ⟨?_, ?_, ?_⟩
    · intro hm
      simp [parseFinalRecord, hm]
    · intro hm ht
      simp [parseFinalRecord, hm, ht]
    · intro hm ht
      simp [parseFinalRecord, hm, ht]
      decide
  · intro env m rm a amt tx ha hmiss
    refine ⟨?_, ?_, ?_⟩
    · intro hrm
      simp [resolve_leg, ha, hmiss, hrm]
    · intro amap hrm hamt
      simp [resolve_leg, ha, hmiss, hrm, hamt]
    · intro amap ra hrm hamt hra hdec
      simp [resolve_leg, ha, hmiss, hrm, hamt, hra, hdec]
      rfl

/-- Witness for C3 at the both-zero log and a concrete unresolved non-zero
asset. -/
theorem zero_sentinel_decimals_display_witness :
    resolve_leg emptyEnv [] [] 0 7 none = Except.ok (6, [])
    ∧ (parseFinalRecord exBothZeroLog (List.replicate 32 0) (List.replicate 32 0)
        6 6 0).maker_asset_id = "0"
    ∧ (parseFinalRecord exBothZeroLog (List.replicate 32 0) (List.replicate 32 0)
        6 6 0).taker_asset_id = "0x0"
    ∧ resolve_leg emptyEnv [] [] 3 7 (some (List.replicate 32 0))
        = Except.ok (18, []) := by
  have h : parse_final exBothZeroLog 6 6
      = Except.ok (parseFinalRecord exBothZeroLog (List.replicate 32 0)
          (List.replicate 32 0) 6 6 0) := by decide
  exact ⟨zero_sentinel_decimals_display.1 emptyEnv [] [] 7 none,
    (zero_sentinel_decimals_display.2.1 exBothZeroLog 6 6 _ h).1 (by decide),
    (zero_sentinel_decimals_display.2.1 exBothZeroLog 6 6 _ h).2.2 (by decide) (by decide),
    (zero_sentinel_decimals_display.2.2 emptyEnv [] [] 3 7 (List.replicate 32 0)
      (by decide) (by decide)).1 (by decide)⟩

/-! ## C10 -/

theorem finalStep_ok_inv {env : Env} {rtm : List (List Nat × List (Nat × List Nat))}
    {acc acc' : List (List Nat × Nat) × List TradeOutput} {trade : RawTrade}
    (h : finalStep env rtm acc trade = Except.ok acc') :
    ∃ md td out, parse_final trade.log md td = Except.ok out
      ∧ acc'.2 = acc.2 ++ [out] := by
  unfold finalStep at h
  obtain ⟨p1, hr1, h1⟩ := except_bind_ok h
  obtain ⟨md, m1⟩ := p1
  obtain ⟨p2, hr2, h2⟩ := except_bind_ok h1
  obtain ⟨td, m2⟩ := p2
  obtain ⟨out, hout, h3⟩ := except_bind_ok h2
  cases h3
  exact ⟨md, td, out, hout, rfl⟩

theorem finalFold_sides {env : Env} {rtm : List (List Nat × List (Nat × List Nat))} :
    ∀ (trades : List RawTrade) (acc : List (List Nat × Nat) × List TradeOutput) r,
      List.foldlM (finalStep env rtm) acc trades = Except.ok r →
      (∀ o ∈ acc.2, o.side = TradeSide.BUY ∨ o.side = TradeSide.SELL) →
      ∀ o ∈ r.2, o.side = TradeSide.BUY ∨ o.side = TradeSide.SELL := by
  intro trades
  induction trades with
  | nil =>
    intro acc r h hacc
    cases h
    exact hacc
  | cons t ts ih =>
    intro acc r h hacc
    rw [List.foldlM_cons] at h
    obtain ⟨acc1, hstep, hrest⟩ := except_bind_ok h
    apply ih acc1 r hrest
    obtain ⟨md, td, out, hout, hsnd⟩ := finalStep_ok_inv hstep
    rw [hsnd]
    intro o ho
    rcases List.mem_append.1 ho with hmem | hmem
    · exact hacc o hmem
    · rw [List.mem_singleton.1 hmem]
      obtain ⟨t2, t3, _, _, _, _, rfl⟩ := parse_final_ok_inv hout
      by_cases hm : makerAssetOf t.log = 0
      · left
        simp [parseFinalRecord, hm]
      · right
        simp [parseFinalRecord, hm]

theorem process_logs_ok_inv {env : Env} {logs : List Log} {outs : List TradeOutput}
    (h : process_logs env logs = Except.ok outs) :
    ∃ dm rtm r, List.foldlM (finalStep env rtm) (dm, ([] : List TradeOutput))
        (collectRaw logs).1 = Except.ok r ∧ outs = r.2 := by
  unfold process_logs at h
  obtain ⟨dm, hdm, h1⟩ := except_bind_ok h
  obtain ⟨txs, htxs, h2⟩ := except_bind_ok h1
  obtain ⟨rtm, hrtm, h3⟩ := except_bind_ok h2
  unfold finalPass at h3
  obtain ⟨r, hr, h4⟩ := except_bind_ok h3
  cases h4
  exact ⟨dm, rtm, r, hr, rfl⟩

/-- C10: every `TradeOutput` the pipeline produces has side BUY or SELL;
the `UNKNOWN` variant declared in `TradeSide` is never produced, for any
input batch and any RPC environment — including logs whose asset ids are
both zero or both non-zero. -/
theorem trade_side_never_unknown (env : Env) (logs : List Log)
    (outs : List TradeOutput) (h : process_logs env logs = Except.ok outs) :
    ∀ o ∈ outs, (o.side = TradeSide.BUY ∨ o.side = TradeSide.SELL)
      ∧ o.side ≠ TradeSide.UNKNOWN := by
  obtain ⟨dm, rtm, r, hr, rfl⟩ := process_logs_ok_inv h
  intro o ho
  have hside := finalFold_sides (collectRaw logs).1 (dm, []) r hr
    (by intro o ho; cases ho) o ho
  refine ⟨hside, ?_⟩
  rcases hside with hs | hs <;> rw [hs] <;> intro hc <;> cases hc

/-- Witness for C10 at a concrete both-zero batch. -/
theorem trade_side_never_unknown_witness :
    process_logs emptyEnv [exBothZeroLog]
        = Except.ok [parseFinalRecord exBothZeroLog (List.replicate 32 0)
            (List.replicate 32 0) 6 6 0]
    ∧ (parseFinalRecord exBothZeroLog (List.replicate 32 0) (List.replicate 32 0)
        6 6 0).side ≠ TradeSide.UNKNOWN := by
  have h : process_logs emptyEnv [exBothZeroLog]
      = Except.ok [parseFinalRecord exBothZeroLog (List.replicate 32 0)
          (List.replicate 32 0) 6 6 0] := by decide
  exact ⟨h, (trade_side_never_unknown emptyEnv [exBothZeroLog] _ h _
    (List.mem_singleton_self _)).2⟩

/-! ## C4 -/

theorem buildMarketInfo_ok_inv {c o q : List Nat} {n : Nat} {mi : MarketInfo}
    (h : buildMarketInfo c o q n = Except.ok mi) :
    n < 2 ^ 64
    ∧ mi.condition_id = format_h256 c
    ∧ mi.yes_token_id = "0x" ++ bytesToHex (get_position_id USDC_ADDRESS
        (get_collection_id (List.replicate 32 0) (get_condition_id (o.drop 12) q n) 1))
    ∧ mi.no_token_id = "0x" ++ bytesToHex (get_position_id USDC_ADDRESS
        (get_collection_id (List.replicate 32 0) (get_condition_id (o.drop 12) q n) 2)) := by
  unfold buildMarketInfo at h
  by_cases hn : n < 2 ^ 64
  · rw [if_pos hn] at h
    cases h
    exact ⟨hn, rfl, rfl, rfl⟩
  · rw [if_neg hn] at h
    cases h

theorem unwrapTopic_ok {o : Option (List Nat)} {t : List Nat}
    (h : unwrapTopic o = Except.ok t) : o = some t := by
  cases o with
  | some x => cases h; rfl
  | none => cases h

theorem fromBigEndianChecked_ok {bs : List Nat} {n : Nat}
    (h : fromBigEndianChecked bs = Except.ok n) :
    bs.length ≤ 32 ∧ n = fromBigEndian bs := by
  unfold fromBigEndianChecked at h
  by_cases hl : bs.length ≤ 32
  · rw [if_pos hl] at h
    cases h
    exact ⟨hl, rfl⟩
  · rw [if_neg hl] at h
    cases h

theorem process_market_log_ok_inv {log : Log} {mi : MarketInfo} {w : Bool}
    (h : process_market_log log = Except.ok (some (mi, w))) :
    ¬ log.topics.length < 4 ∧ log.data.length ≤ 32 ∧ w = false
      ∧ buildMarketInfo (log.topics.getD 1 []) (log.topics.getD 2 [])
          (log.topics.getD 3 []) (fromBigEndian log.data) = Except.ok mi := by
  unfold process_market_log at h
  by_cases ht : log.topics.length < 4
  · rw [if_pos ht] at h
    cases h
  · rw [if_neg ht] at h
    obtain ⟨n, hn, h1⟩ := except_bind_ok h
    obtain ⟨hd, rfl⟩ := fromBigEndianChecked_ok hn
    obtain ⟨mi2, hmi, h2⟩ := except_bind_ok h1
    simp only [Pure.pure, Except.pure, Except.ok.injEq, Option.some.injEq,
      Prod.mk.injEq] at h2
    obtain ⟨rfl, rfl⟩ := h2
    exact ⟨ht, hd, rfl, hmi⟩

theorem market_by_id_ok_inv {cid : List Nat} {log : Log} {mi : MarketInfo} {w : Bool}
    (h : process_market_log_by_id cid log = Except.ok (mi, w)) :
    ∃ t1 t2 t3, log.topics.get? 1 = some t1 ∧ log.topics.get? 2 = some t2
      ∧ log.topics.get? 3 = some t3 ∧ log.data.length ≤ 32
      ∧ w = decide (get_condition_id (t2.drop 12) t3 (fromBigEndian log.data) ≠ cid)
      ∧ buildMarketInfo t1 t2 t3 (fromBigEndian log.data) = Except.ok mi := by
  unfold process_market_log_by_id at h
  obtain ⟨t1, h1, hh⟩ := except_bind_ok h
  obtain ⟨t2, h2, hh⟩ := except_bind_ok hh
  obtain ⟨t3, h3, hh⟩ := except_bind_ok hh
  obtain ⟨n, hn, hh⟩ := except_bind_ok hh
  obtain ⟨hd, rfl⟩ := fromBigEndianChecked_ok hn
  obtain ⟨mi2, hmi, hh⟩ := except_bind_ok hh
  simp only [Pure.pure, Except.pure, Except.ok.injEq, Prod.mk.injEq] at hh
  obtain ⟨rfl, rfl⟩ := hh
  exact ⟨t1, t2, t3, unwrapTopic_ok h1, unwrapTopic_ok h2, unwrapTopic_ok h3,
    hd, rfl, hmi⟩

/-- C4 counterexample: a `ConditionPreparation` log processed by the scan
path (`fetch_market_events`) whose stored condition id (topic 1) provably
differs from the recomputed one — the first byte is flipped — yet the scan
path emits no warning at all (the warning flag is `false`; the body
contains no comparison). -/
theorem market_scan_no_warning_counterexample :
    (process_market_log exMarketLog).map (Option.map Prod.snd) = Except.ok (some false)
    ∧ get_condition_id ((exMarketLog.topics.getD 2 []).drop 12)
        (exMarketLog.topics.getD 3 []) (fromBigEndian exMarketLog.data)
        ≠ exMarketLog.topics.getD 1 [] := by
  constructor
  · rfl
  · have hne : flipByte exCalculatedCid ≠ exCalculatedCid :=
      flipByte_ne _ (keccak256_ne_nil _)
    change exCalculatedCid ≠ flipByte exCalculatedCid
    exact fun hEq => hne hEq.symm

/-- C4 (amended): only `fetch_market_info_by_condition_id` compares the
recomputed condition id against a stored one — its warning fires exactly
when the recomputed id differs from the caller-supplied id; the scan path
(`fetch_market_events`) and the receipt path (`fetch_market_info`) perform
no comparison and never warn.  In the scan path the recomputed condition id
(not the logged one) is the value used to derive the YES and NO collection
and position ids, while the logged id is what is displayed. -/
theorem market_warning_policy :
    (∀ log mi w, process_market_log log = Except.ok (some (mi, w)) →
        w = false
        ∧ mi.condition_id = format_h256 (log.topics.getD 1 [])
        ∧ mi.yes_token_id = "0x" ++ bytesToHex (get_position_id USDC_ADDRESS
            (get_collection_id (List.replicate 32 0)
              (get_condition_id ((log.topics.getD 2 []).drop 12)
                (log.topics.getD 3 []) (fromBigEndian log.data)) 1))
        ∧ mi.no_token_id = "0x" ++ bytesToHex (get_position_id USDC_ADDRESS
            (get_collection_id (List.replicate 32 0)
              (get_condition_id ((log.topics.getD 2 []).drop 12)
                (log.topics.getD 3 []) (fromBigEndian log.data)) 2)))
    ∧ (∀ log mi w, process_market_prep_log log = Except.ok (some (mi, w)) → w = false)
    ∧ (∀ cid log mi w, process_market_log_by_id cid log = Except.ok (mi, w) →
        (w = true ↔ get_condition_id ((log.topics.getD 2 []).drop 12)
            (log.topics.getD 3 []) (fromBigEndian log.data) ≠ cid)) := by
  refine ⟨?_, ?_, ?_⟩
  · intro log mi w h
    obtain ⟨ht, hd, hw, hbuild⟩ := process_market_log_ok_inv h
    obtain ⟨hn, hcid, hyes, hno⟩ := buildMarketInfo_ok_inv hbuild
    exact ⟨hw, hcid, hyes, hno⟩
  · intro log mi w h
    unfold process_market_prep_log at h
    by_cases h0 : log.topics.head? = some conditionPreparationTopic
    · rw [if_pos h0] at h
      by_cases ht : log.topics.length < 4
      · rw [if_pos ht] at h
        cases h
      · rw [if_neg ht] at h
        obtain ⟨n, hn, h1⟩ := except_bind_ok h
        obtain ⟨mi2, hmi, h2⟩ := except_bind_ok h1
        simp only [Pure.pure, Except.pure, Except.ok.injEq, Option.some.injEq,
          Prod.mk.injEq] at h2
        exact h2.2.symm
    · rw [if_neg h0] at h
      cases h
  · intro cid log mi w h
    obtain ⟨t1, t2, t3, h1, h2, h3, hd, hw, hbuild⟩ := market_by_id_ok_inv h
    have hg2 : log.topics.getD 2 [] = t2 := by
      rw [List.getD_eq_getElem?_getD, ← List.get?_eq_getElem?, h2]
      rfl
    have hg3 : log.topics.getD 3 [] = t3 := by
      rw [List.getD_eq_getElem?_getD, ← List.get?_eq_getElem?, h3]
      rfl
    rw [hg2, hg3, hw]
    simp

/-- Witness for C4: a concrete well-formed `ConditionPreparation` log run
through the scan path — no warning, logged id displayed, recomputed id used
for the YES-token derivation — and through the by-id path with the matching
caller-supplied id — warning flag false. -/
theorem market_warning_policy_witness :
    process_market_log exMarketLog2 = Except.ok (some (exMarketInfo, false))
    ∧ exMarketInfo.condition_id = format_h256 (exMarketLog2.topics.getD 1 [])
    ∧ exMarketInfo.yes_token_id = "0x" ++ bytesToHex (get_position_id USDC_ADDRESS
        (get_collection_id (List.replicate 32 0)
          (get_condition_id ((exMarketLog2.topics.getD 2 []).drop 12)
            (exMarketLog2.topics.getD 3 []) (fromBigEndian exMarketLog2.data)) 1)) := by
  have h : process_market_log exMarketLog2 = Except.ok (some (exMarketInfo, false)) := rfl
  exact ⟨h, (market_warning_policy.1 exMarketLog2 exMarketInfo false h).2.1,
    (market_warning_policy.1 exMarketLog2 exMarketInfo false h).2.2.1⟩

/-! ## C7 -/

theorem collectRaw_skip (l : Log) (ls : List Log) (h : l.data.length < 128) :
    collectRaw (l :: ls) = collectRaw ls := by
  simp [collectRaw, h]

/-- C7 counterexample: a log with 128 data bytes but no topics at all.  The
claim says such a malformed log is silently skipped with no error; the
trade path instead panics (`log.topics[3]` index out of bounds, modelled as
`Except.error ()`), aborting the whole batch. -/
theorem malformed_topics_panic_counterexample :
    exShortTopicsLog.data.length = 128
    ∧ exShortTopicsLog.topics.length = 0
    ∧ process_logs emptyEnv [exShortTopicsLog] = Except.error () := by
  exact ⟨by decide, by decide, by decide⟩

/-- C7 (amended): in the batch of logs processed into trades, a log with
fewer than 128 data bytes is recovered locally by silently skipping that
single log — removing it from the batch changes nothing, so it produces
zero output records and no error; but a log with at least 128 data bytes
and fewer than 4 topics is *not* skipped: the trade path panics on it
(index out of bounds), aborting the batch, for every environment. -/
theorem malformed_log_handling :
    (∀ env (l : Log) ls, l.data.length < 128 →
        process_logs env (l :: ls) = process_logs env ls)
    ∧ (∀ env (l : Log), 128 ≤ l.data.length → l.topics.length < 4 →
        process_logs env [l] = Except.error ()) := by
  refine ⟨?_, ?_⟩
  · intro env l ls h
    unfold process_logs
    rw [collectRaw_skip l ls h]
  · intro env l hdl htl
    unfold process_logs
    apply except_bind_error
    intro dm
    apply except_bind_error
    intro txs
    apply except_bind_error
    intro rtm
    have hraw : (collectRaw [l]).1
        = [⟨l, makerAssetOf l, takerAssetOf l, makerAmountOf l, takerAmountOf l⟩] := by
      simp [collectRaw, Nat.not_lt.2 hdl]
    rw [hraw]
    have hstep : finalStep env rtm (dm, [])
        ⟨l, makerAssetOf l, takerAssetOf l, makerAmountOf l, takerAmountOf l⟩
        = Except.error () := by
      unfold finalStep
      apply except_bind_error
      rintro ⟨md, m1⟩
      apply except_bind_error
      rintro ⟨td, m2⟩
      exact bind_error_of_error _ _ (parse_final_topics_short _ md td htl)
    unfold finalPass
    rw [List.foldlM_cons, hstep]
    rfl

/-- Witness for C7: the short-data log is dropped with no effect on the
batch, and the concrete malformed trade log aborts. -/
theorem malformed_log_handling_witness :
    process_logs emptyEnv [exShortDataLog] = process_logs emptyEnv []
    ∧ process_logs emptyEnv [exShortTopicsLog] = Except.error () := by
  exact ⟨malformed_log_handling.1 emptyEnv exShortDataLog [] (by decide),
    malformed_log_handling.2 emptyEnv exShortTopicsLog (by decide) (by decide)⟩

/-! ## C9 -/

/-- C9: a batch with one well-formed `OrderFilled` log (128 data bytes,
4 topics) whose `transaction_hash` is absent and whose non-zero maker asset
id's candidate address fails the decimals probe (so it is not in the cache)
makes `process_logs` panic — the `transaction_hash.unwrap()` of
`scanner.rs` line 267 — modelled as `Except.error ()`, instead of skipping
the log or returning a list. -/
theorem process_logs_missing_txhash_panics :
    exNoTxLog.transaction_hash = none
    ∧ 128 ≤ exNoTxLog.data.length
    ∧ makerAssetOf exNoTxLog ≠ 0
    ∧ get_decimals emptyEnv (assetAddr (makerAssetOf exNoTxLog)) = Except.ok none
    ∧ process_logs emptyEnv [exNoTxLog] = Except.error () := by
  exact ⟨by decide, by decide, by decide, by decide, by decide⟩

end PolyScan
